import Mathlib

/-!
Verification of the RAG-pdf backend core pipeline: a shallow embedding of
`chunk_text` (utils.py), the vector store `add_documents` / `search`
(vectorstore.py), `answer_question` (rag.py) and the progress tracker's
`cleanup_old_sessions` (progress.py), with theorems settling the frozen
claims about them.

Modelling conventions:
- Strings of the Python code are Lean `String`s; the chunker works on the
  text's character list (`List Char`), so slices are `drop`/`take`.
- A Python function that can raise returns `Except`/`Option`; `none` /
  `.error` is an uncaught exception.
- The FAISS flat index is represented by its vector count `ntotal`; the
  ordinal list `I[0]` produced by `_index.search(emb, k)` enters the model
  as an explicit argument constrained by the predicate `FaissOrdinals`
  (FAISS returns the `min V k` valid nearest ordinals first and pads the
  remaining slots with `-1`).
- The SentenceTransformer model is represented by the flag `modelOk`
  (`_model is not None`); `_model.encode` yields one embedding per input,
  so adding `chunks` grows `ntotal` by `chunks.length`. After
  `_ensure_initialized` the index and metadata are never `None` (every
  failure path installs a fallback), so only the model flag can be false.
-/

namespace RagPdf

/-! ## TextChunker: utils.chunk_text -/

/-- One iteration-bounded run of the `while start < len(text)` loop of
`chunk_text`: each step appends `text[start:start+size]` and advances
`start` by `size - overlap` (natural subtraction; for `overlap < size`
this is the Python value). `none` means the fuel ran out with the loop
still running, i.e. the run did not terminate within `fuel` iterations. -/
def chunkLoopF (text : List Char) (size overlap : Nat) : Nat → Nat → Option (List (List Char))
  | 0, start => if start < text.length then none else some []
  | fuel+1, start =>
    if start < text.length then
      match chunkLoopF text size overlap fuel (start + (size - overlap)) with
      | some rest => some (((text.drop start).take size) :: rest)
      | none => none
    else some []

/-- `chunk_text(text, size, overlap)`: returns `[]` when `text.strip()` is
empty (all characters whitespace), otherwise runs the sliding-window loop
from `start = 0`. `text.length` iterations of fuel suffice whenever the
advance `size - overlap` is positive. -/
def chunk_text (text : List Char) (size overlap : Nat) : Option (List (List Char)) :=
  if text.all Char.isWhitespace then some []
  else chunkLoopF text size overlap text.length 0

/-! ## EmbeddingIndex: vectorstore.py -/

/-- One metadata row `{"text": c, "source": source}`. -/
structure Row where
  text : String
  source : String
deriving DecidableEq, Repr

/-- The in-memory vector store state after `_ensure_initialized`:
`modelOk` is `_model is not None` (the index and metadata always exist
after initialization, every load failure degrading to an empty fallback),
`ntotal` is `_index.ntotal`, `metadata` is `_metadata`. -/
structure Store where
  modelOk : Bool
  ntotal : Nat
  metadata : List Row
deriving DecidableEq, Repr

/-- The store together with the two on-disk artifacts (`faiss.index` and
`meta.pkl`), each recorded as the last successfully persisted value. -/
structure World where
  store : Store
  diskIndex : Option Nat
  diskMeta : Option (List Row)
deriving DecidableEq, Repr

/-- Outcome of the persistence block of `add_documents`: both writes
succeed, only `faiss.write_index` succeeds (the pickle dump then raises),
or the index write already raises so neither artifact is updated. -/
inductive PersistOutcome
  | both
  | indexOnly
  | neither
deriving DecidableEq, Repr

/-- `add_documents(chunks, source)`: raises `RuntimeError` when the model
is `None`; otherwise encodes one embedding per chunk, appends them to the
index (`ntotal + chunks.length`) and the `{text, source}` rows to the
metadata in input order, then tries to persist both artifacts — a
persistence failure is only logged, the call still returns normally. -/
def add_documents (w : World) (chunks : List String) (source : String)
    (persist : PersistOutcome) : Except String World :=
  if w.store.modelOk = false then
    Except.error "Vector store not initialized properly"
  else
    let st : Store :=
      { modelOk := w.store.modelOk
        ntotal := w.store.ntotal + chunks.length
        metadata := w.store.metadata ++ chunks.map (fun c => { text := c, source := source }) }
    match persist with
    | PersistOutcome.both => Except.ok { store := st, diskIndex := some st.ntotal, diskMeta := some st.metadata }
    | PersistOutcome.indexOnly => Except.ok { store := st, diskIndex := some st.ntotal, diskMeta := w.diskMeta }
    | PersistOutcome.neither => Except.ok { store := st, diskIndex := w.diskIndex, diskMeta := w.diskMeta }

/-- Python list indexing `md[idx]` on a metadata list: a nonnegative index
is looked up directly, a negative index `-n` with `n ≤ len` addresses
`md[len - n]` (so `-1` is the last row), and anything else raises
`IndexError` (`none`). -/
def pyIndex (md : List Row) (idx : Int) : Option Row :=
  if 0 ≤ idx then md.get? idx.toNat
  else if idx.natAbs ≤ md.length then md.get? (md.length - idx.natAbs)
  else none

/-- The result-gathering loop of `search`: `for i, idx in enumerate(I[0]):
if idx < len(_metadata): results.append(_metadata[idx]) else: <log and
skip>`. An `IndexError` from `_metadata[idx]` propagates (`none`). -/
def searchGather (I : List Int) (md : List Row) : Option (List Row) :=
  match I with
  | [] => some []
  | idx :: rest =>
    if idx < (md.length : Int) then
      match pyIndex md idx with
      | some row => (searchGather rest md).map (fun rs => row :: rs)
      | none => none
    else
      searchGather rest md

/-- `search(query, k)`: returns `[]` when the model is `None`, when the
metadata list is empty, or when embedding the query / running the index
search raises (`callsOk = false` covers both caught-exception paths);
otherwise maps the ordinal list `I` returned by `_index.search` through
the metadata-gathering loop. `none` is an uncaught exception. -/
def search (st : Store) (callsOk : Bool) (I : List Int) : Option (List Row) :=
  if st.modelOk = false then some []
  else if st.metadata.isEmpty then some []
  else if callsOk = false then some []
  else searchGather I st.metadata

/-- Shape of the ordinal row `I[0]` returned by a FAISS `IndexFlatL2`
holding `V` vectors when asked for `k` neighbours: `k` entries, the first
`min V k` of them valid ordinals in `[0, V)`, the rest the padding
sentinel `-1`. -/
def FaissOrdinals (V k : Nat) (I : List Int) : Prop :=
  I.length = k ∧
  (∀ x ∈ I.take (min V k), 0 ≤ x ∧ x < (V : Int)) ∧
  (∀ x ∈ I.drop (min V k), x = -1)

instance (V k : Nat) (I : List Int) : Decidable (FaissOrdinals V k I) := by
  unfold FaissOrdinals; infer_instance

/-! ## RetrievalEngine: rag.answer_question -/

/-- One entry of the `sources` list: `{"id": i+1, "source": d["source"]}`
(the spec calls the `id` field `rank`). -/
structure SourceRef where
  id : Nat
  source : String
deriving DecidableEq, Repr

/-- The `{answer, sources}` dictionary returned by `answer_question`. -/
structure AnswerResponse where
  answer : String
  sources : List SourceRef
deriving DecidableEq, Repr

/-- The fixed fallback answer returned when no documents are retrieved. -/
def fallbackAnswer : String :=
  "I don't have any relevant documents to answer this question. Please upload some documents first."

/-- The context block built from the retrieved rows: one numbered part
`[i] Source: {source}\n{text}` per row, in search order, joined by blank
lines. -/
def buildContext (docs : List Row) : String :=
  String.intercalate "\n\n"
    (docs.enum.map (fun p =>
      "[" ++ toString (p.1 + 1) ++ "] Source: " ++ p.2.source ++ "\n" ++ p.2.text))

/-- The instruction prompt of `answer_question`, with the context and the
question substituted into the fixed f-string template. -/
def buildPrompt (context question : String) : String :=
  "\nYou are a helpful assistant.\nAnswer the question using ONLY the context below.\nWhen you use a fact, cite it like [1], [2], etc.\nIf the answer is not in the context, say: \"I don't know based on the provided documents.\"\n\nContext:\n" ++ context ++ "\n\nQuestion:\n" ++ question ++ "\n\nAnswer:\n"

/-- `answer_question(question)`: runs `search(question, k=5)` (a raised
search exception is re-raised, `none`); on an empty result list returns the
fallback answer with no sources immediately; otherwise builds the context
and prompt, calls the generation client once and returns the generated
text stripped of surrounding whitespace, together with `{id, source}`
references in retrieval order. The second component of the result lists
the prompts sent to the generation client during the call, so an empty
list means the client was never invoked. -/
def answer_question (question : String) (st : Store) (callsOk : Bool) (I : List Int)
    (gen : String → String) : Option (AnswerResponse × List String) :=
  match search st callsOk I with
  | none => none
  | some docs =>
    if docs.isEmpty then
      some ({ answer := fallbackAnswer, sources := [] }, [])
    else
      let prompt := buildPrompt (buildContext docs) question
      let ans := gen prompt
      some ({ answer := ans.trim
              sources := docs.enum.map (fun p => { id := p.1 + 1, source := p.2.source }) },
            [prompt])

/-! ## ProgressTracker: progress.py -/

/-- One progress step `{timestamp, step, status, details}`. -/
structure Step where
  timestamp : String
  step : String
  status : String
  details : String
deriving DecidableEq, Repr

/-- The tracker state: `progress_data` maps session ids to their step
logs and `active_sessions` to their active flags; both are modelled as
insertion-ordered key/value lists, Python dicts preserving insertion
order. -/
structure ProgressTracker where
  progress_data : List (String × List Step)
  active_sessions : List (String × Bool)
deriving DecidableEq, Repr

/-- `del d[key]` on an insertion-ordered dict: removes the (first) entry
with that key. -/
def delKey {α : Type} (l : List (String × α)) (key : String) : List (String × α) :=
  l.eraseP (fun p => p.1 == key)

/-- Python's `l[:-m]`: for `m ≥ 1` the first `len - m` elements, but for
`m = 0` the slice is `l[:0] = []` since `-0 == 0`. -/
def pySliceUptoNeg (l : List String) (m : Nat) : List String :=
  if m = 0 then [] else l.take (l.length - m)

/-- `cleanup_old_sessions(max_sessions)`: when more than `max_sessions`
sessions are tracked, deletes each session id in `sessions[:-max_sessions]`
(creation order, irrespective of active flag) from both dicts. -/
def cleanup_old_sessions (t : ProgressTracker) (max_sessions : Nat) : ProgressTracker :=
  if t.progress_data.length > max_sessions then
    let sessions := t.progress_data.map Prod.fst
    let doomed := pySliceUptoNeg sessions max_sessions
    { progress_data := doomed.foldl (fun md sid => delKey md sid) t.progress_data
      active_sessions :=
        doomed.foldl
          (fun acts sid =>
            if (acts.map Prod.fst).contains sid then delKey acts sid else acts)
          t.active_sessions }
  else t

/-! ## Lemmas about the chunking loop -/

/-- When the advance is positive, `text.length - start` iterations of fuel
are enough for the chunking loop to terminate. -/
lemma chunkLoopF_isSome (text : List Char) (size overlap : Nat)
    (hstep : 0 < size - overlap) :
    ∀ fuel start, text.length - start ≤ fuel →
      (chunkLoopF text size overlap fuel start).isSome := by
  intro fuel
  induction fuel with
  | zero =>
    intro start hle
    have hge : text.length ≤ start := by omega
    simp [chunkLoopF, Nat.not_lt.mpr hge]
  | succ n ih =>
    intro start hle
    by_cases hlt : start < text.length
    · have hrec : (chunkLoopF text size overlap n (start + (size - overlap))).isSome :=
        ih (start + (size - overlap)) (by omega)
      rw [Option.isSome_iff_exists] at hrec
      obtain ⟨rest, hrest⟩ := hrec
      simp [chunkLoopF, hlt, hrest]
    · simp [chunkLoopF, hlt]

/-- Full characterization of a terminating chunking-loop run started at
`start`: it returns a chunk list whose `i`-th element is the slice
`text[start + i*(size-overlap) : start + i*(size-overlap) + size]`, and
every character position from `start` on is inside at least one of those
slices. -/
lemma chunkLoopF_spec (text : List Char) (size overlap : Nat)
    (hso : overlap < size) :
    ∀ fuel start, text.length - start ≤ fuel →
      ∃ cs, chunkLoopF text size overlap fuel start = some cs ∧
        (∀ i (h : i < cs.length),
          cs.get ⟨i, h⟩ = (text.drop (start + i * (size - overlap))).take size) ∧
        (∀ j, start ≤ j → j < text.length →
          ∃ i, i < cs.length ∧ start + i * (size - overlap) ≤ j ∧
            j < start + i * (size - overlap) + size) := by
  intro fuel
  induction fuel with
  | zero =>
    intro start hle
    have hge : text.length ≤ start := by omega
    refine ⟨[], by simp [chunkLoopF, Nat.not_lt.mpr hge], ?_, ?_⟩
    · intro i h; simp at h
    · intro j hj hjlen; omega
  | succ n ih =>
    intro start hle
    by_cases hlt : start < text.length
    · obtain ⟨rest, hrest, hget, hcov⟩ := ih (start + (size - overlap)) (by omega)
      refine ⟨((text.drop start).take size) :: rest, by simp [chunkLoopF, hlt, hrest], ?_, ?_⟩
      · intro i h
        cases i with
        | zero => simp
        | succ m =>
          have hm : m < rest.length := by simpa using h
          have harith : start + (size - overlap) + m * (size - overlap)
              = start + (m + 1) * (size - overlap) := by
            rw [Nat.succ_mul]; omega
          have := hget m hm
          simp only [List.get_cons_succ]
          rw [this, harith]
      · intro j hj hjlen
        by_cases hfirst : j < start + size
        · exact ⟨0, by simp, by simpa using hj, by simpa using hfirst⟩
        · have hsz : size - overlap ≤ size := Nat.sub_le _ _
          obtain ⟨i, hi, hlo, hhi⟩ := hcov j (by omega) hjlen
          refine ⟨i + 1, by simpa using Nat.succ_lt_succ hi, ?_, ?_⟩
          · have : (i + 1) * (size - overlap) = i * (size - overlap) + (size - overlap) := by
              rw [Nat.succ_mul]
            omega
          · have : (i + 1) * (size - overlap) = i * (size - overlap) + (size - overlap) := by
              rw [Nat.succ_mul]
            omega
    · refine ⟨[], by simp [chunkLoopF, hlt], ?_, ?_⟩
      · intro i h; simp at h
      · intro j hj hjlen; omega

/-- Claim C7: under the precondition `overlap < size` the per-step advance
`size - overlap` is positive, so the chunking loop terminates (the start
offset strictly increases each iteration and the loop exits once it
reaches the text length): `chunk_text` is a total function there. -/
theorem chunk_text_total (text : List Char) (size overlap : Nat) (h : overlap < size) :
    ∃ cs, chunk_text text size overlap = some cs := by
  by_cases hws : text.all Char.isWhitespace
  · exact ⟨[], by simp [chunk_text, hws]⟩
  · have hsome : (chunkLoopF text size overlap text.length 0).isSome :=
      chunkLoopF_isSome text size overlap (by omega) text.length 0 (by omega)
    rw [Option.isSome_iff_exists] at hsome
    obtain ⟨cs, hcs⟩ := hsome
    exact ⟨cs, by simp [chunk_text, hws, hcs]⟩

/-- Witness for `chunk_text_total` at text `"abc"`, size 2, overlap 1. -/
theorem chunk_text_total_witness :
    1 < 2 ∧ ∃ cs, chunk_text ['a', 'b', 'c'] 2 1 = some cs :=
  ⟨by decide, chunk_text_total ['a', 'b', 'c'] 2 1 (by decide)⟩

/-- Counterexample to claim C3 as stated: for the whitespace-only text
`" "` with size 2 and overlap 0 (so `0 ≤ overlap < size`), `chunk_text`
returns no chunks at all, so the character at position 0 appears in no
produced chunk and the coverage part of the claim fails. -/
theorem chunk_text_cover_cex :
    chunk_text [' '] 2 0 = some [] ∧ 0 < ([' '] : List Char).length ∧
      ∀ cs, chunk_text [' '] 2 0 = some cs → ¬ ∃ c ∈ cs, ' ' ∈ c := by
  refine ⟨by decide, by decide, ?_⟩
  intro cs hcs
  have h0 : chunk_text [' '] 2 0 = some [] := by decide
  rw [h0] at hcs
  obtain rfl : ([] : List (List Char)) = cs := Option.some_inj.mp hcs
  simp

/-- Claim C3 as amended: for every text containing at least one
non-whitespace character and every `overlap < size`, `chunk_text`
terminates with chunks whose `i`-th element is the slice
`text[i*(size-overlap) : i*(size-overlap)+size]` (so consecutive start
offsets differ by exactly `size - overlap`), every chunk has length at
most `size`, and every character position of the text lies inside at
least one produced chunk's slice. -/
theorem chunk_text_spec (text : List Char) (size overlap : Nat)
    (hso : overlap < size) (hnw : ∃ c ∈ text, ¬ c.isWhitespace) :
    ∃ cs, chunk_text text size overlap = some cs ∧
      (∀ i (h : i < cs.length),
        cs.get ⟨i, h⟩ = (text.drop (i * (size - overlap))).take size) ∧
      (∀ ch ∈ cs, ch.length ≤ size) ∧
      (∀ j, j < text.length →
        ∃ i, i < cs.length ∧ i * (size - overlap) ≤ j ∧
          j < i * (size - overlap) + size) := by
  have hws : text.all Char.isWhitespace = false := by
    cases h : text.all Char.isWhitespace
    · rfl
    · obtain ⟨c, hc, hcws⟩ := hnw
      exact absurd (by simpa using List.all_eq_true.mp h c hc) hcws
  obtain ⟨cs, hcs, hget, hcov⟩ :=
    chunkLoopF_spec text size overlap hso text.length 0 (by omega)
  refine ⟨cs, by simp [chunk_text, hws, hcs], ?_, ?_, ?_⟩
  · intro i h
    simpa using hget i h
  · intro ch hch
    obtain ⟨n, rfl⟩ := List.mem_iff_get.mp hch
    have hn := hget n.1 n.2
    rw [Fin.eta] at hn
    rw [hn]
    simp [List.length_take]
  · intro j hj
    simpa using hcov j (Nat.zero_le _) hj

/-- Witness for `chunk_text_spec` at text `"ab"`, size 2, overlap 1. -/
theorem chunk_text_spec_witness :
    (1 < 2 ∧ ∃ c ∈ (['a', 'b'] : List Char), ¬ c.isWhitespace) ∧
    (∃ cs, chunk_text ['a', 'b'] 2 1 = some cs ∧
      (∀ i (h : i < cs.length),
        cs.get ⟨i, h⟩ = ((['a', 'b'] : List Char).drop (i * (2 - 1))).take 2) ∧
      (∀ ch ∈ cs, ch.length ≤ 2) ∧
      (∀ j, j < (['a', 'b'] : List Char).length →
        ∃ i, i < cs.length ∧ i * (2 - 1) ≤ j ∧ j < i * (2 - 1) + 2)) :=
  ⟨⟨by decide, by decide⟩, chunk_text_spec ['a', 'b'] 2 1 (by decide) (by decide)⟩

/-! ## Theorems about add_documents -/

/-- On a properly initialized store, `add_documents` returns normally with
the in-memory index grown by one vector per chunk and the metadata rows
appended, whatever the persistence outcome. -/
lemma add_documents_ok (w : World) (chunks : List String) (source : String)
    (persist : PersistOutcome) (hm : w.store.modelOk = true) :
    ∃ w', add_documents w chunks source persist = Except.ok w' ∧
      w'.store.modelOk = w.store.modelOk ∧
      w'.store.ntotal = w.store.ntotal + chunks.length ∧
      w'.store.metadata
        = w.store.metadata ++ chunks.map (fun c => { text := c, source := source }) := by
  unfold add_documents
  rw [hm]
  cases persist <;> exact ⟨_, rfl, rfl, rfl, rfl⟩

/-- Claim C2: a completed `add_documents(chunks, source)` on a store with
`M` prior vectors and `M` metadata rows leaves `M + N` vectors and `M + N`
metadata rows (`N` the number of chunks), the last `N` rows being
`{text := chunks[i], source}` in input order; in particular the
ordinal-correspondence invariant `ntotal = metadata.length` is preserved
by every completed mutation. -/
theorem add_documents_append_spec (w : World) (chunks : List String) (source : String)
    (persist : PersistOutcome) (hm : w.store.modelOk = true) :
    ∃ w', add_documents w chunks source persist = Except.ok w' ∧
      w'.store.ntotal = w.store.ntotal + chunks.length ∧
      w'.store.metadata.length = w.store.metadata.length + chunks.length ∧
      w'.store.metadata.drop w.store.metadata.length
        = chunks.map (fun c => { text := c, source := source }) ∧
      (w.store.ntotal = w.store.metadata.length →
        w'.store.ntotal = w'.store.metadata.length) := by
  obtain ⟨w', hok, _, hn, hmeta⟩ := add_documents_ok w chunks source persist hm
  refine ⟨w', hok, hn, ?_, ?_, ?_⟩
  · rw [hmeta]; simp
  · rw [hmeta, List.drop_left]
  · intro hinv
    rw [hn, hmeta, hinv]; simp

/-- Witness for `add_documents_append_spec`: adding two chunks to an empty
initialized store. -/
theorem add_documents_append_spec_witness :
    (⟨⟨true, 0, []⟩, none, none⟩ : World).store.modelOk = true ∧
    (∃ w', add_documents ⟨⟨true, 0, []⟩, none, none⟩ ["a", "b"] "doc" PersistOutcome.both
        = Except.ok w' ∧
      w'.store.ntotal = (⟨⟨true, 0, []⟩, none, none⟩ : World).store.ntotal + (["a", "b"] : List String).length ∧
      w'.store.metadata.length
        = (⟨⟨true, 0, []⟩, none, none⟩ : World).store.metadata.length + (["a", "b"] : List String).length ∧
      w'.store.metadata.drop (⟨⟨true, 0, []⟩, none, none⟩ : World).store.metadata.length
        = (["a", "b"] : List String).map (fun c => { text := c, source := "doc" }) ∧
      ((⟨⟨true, 0, []⟩, none, none⟩ : World).store.ntotal
          = (⟨⟨true, 0, []⟩, none, none⟩ : World).store.metadata.length →
        w'.store.ntotal = w'.store.metadata.length)) :=
  ⟨rfl, add_documents_append_spec ⟨⟨true, 0, []⟩, none, none⟩ ["a", "b"] "doc"
    PersistOutcome.both rfl⟩

/-- Claim C6: when the in-memory appends succeed but persisting fails —
either before any artifact is written (`neither`) or between the index
write and the metadata write (`indexOnly`) — `add_documents` still returns
normally (`Except.ok`, success reported to the caller), the in-memory
store retains the appended vectors and rows, and the failed artifact on
disk is left as it was (the failure is only logged, never retried). -/
theorem add_documents_persist_failure_tolerated (w : World) (chunks : List String)
    (source : String) (hm : w.store.modelOk = true) :
    (∃ w', add_documents w chunks source PersistOutcome.neither = Except.ok w' ∧
      w'.store.ntotal = w.store.ntotal + chunks.length ∧
      w'.store.metadata
        = w.store.metadata ++ chunks.map (fun c => { text := c, source := source }) ∧
      w'.diskIndex = w.diskIndex ∧ w'.diskMeta = w.diskMeta) ∧
    (∃ w', add_documents w chunks source PersistOutcome.indexOnly = Except.ok w' ∧
      w'.store.ntotal = w.store.ntotal + chunks.length ∧
      w'.store.metadata
        = w.store.metadata ++ chunks.map (fun c => { text := c, source := source }) ∧
      w'.diskMeta = w.diskMeta) := by
  unfold add_documents
  rw [hm]
  exact ⟨⟨_, rfl, rfl, rfl, rfl, rfl⟩, ⟨_, rfl, rfl, rfl, rfl⟩⟩

/-- Witness for `add_documents_persist_failure_tolerated` on a store with
one prior row. -/
theorem add_documents_persist_failure_tolerated_witness :
    (⟨⟨true, 1, [⟨"t", "s"⟩]⟩, some 1, some [⟨"t", "s"⟩]⟩ : World).store.modelOk = true ∧
    ((∃ w', add_documents ⟨⟨true, 1, [⟨"t", "s"⟩]⟩, some 1, some [⟨"t", "s"⟩]⟩ ["u"] "s2"
        PersistOutcome.neither = Except.ok w' ∧
      w'.store.ntotal = (⟨⟨true, 1, [⟨"t", "s"⟩]⟩, some 1, some [⟨"t", "s"⟩]⟩ : World).store.ntotal
          + (["u"] : List String).length ∧
      w'.store.metadata
        = (⟨⟨true, 1, [⟨"t", "s"⟩]⟩, some 1, some [⟨"t", "s"⟩]⟩ : World).store.metadata
          ++ (["u"] : List String).map (fun c => { text := c, source := "s2" }) ∧
      w'.diskIndex = (⟨⟨true, 1, [⟨"t", "s"⟩]⟩, some 1, some [⟨"t", "s"⟩]⟩ : World).diskIndex ∧
      w'.diskMeta = (⟨⟨true, 1, [⟨"t", "s"⟩]⟩, some 1, some [⟨"t", "s"⟩]⟩ : World).diskMeta) ∧
    (∃ w', add_documents ⟨⟨true, 1, [⟨"t", "s"⟩]⟩, some 1, some [⟨"t", "s"⟩]⟩ ["u"] "s2"
        PersistOutcome.indexOnly = Except.ok w' ∧
      w'.store.ntotal = (⟨⟨true, 1, [⟨"t", "s"⟩]⟩, some 1, some [⟨"t", "s"⟩]⟩ : World).store.ntotal
          + (["u"] : List String).length ∧
      w'.store.metadata
        = (⟨⟨true, 1, [⟨"t", "s"⟩]⟩, some 1, some [⟨"t", "s"⟩]⟩ : World).store.metadata
          ++ (["u"] : List String).map (fun c => { text := c, source := "s2" }) ∧
      w'.diskMeta = (⟨⟨true, 1, [⟨"t", "s"⟩]⟩, some 1, some [⟨"t", "s"⟩]⟩ : World).diskMeta)) :=
  ⟨rfl, add_documents_persist_failure_tolerated
    ⟨⟨true, 1, [⟨"t", "s"⟩]⟩, some 1, some [⟨"t", "s"⟩]⟩ ["u"] "s2" rfl⟩

/-- Claim C10: with the embedding model missing (`modelOk = false`) but
index and metadata initialized, the two public operations are asymmetric:
`add_documents` raises `RuntimeError("Vector store not initialized
properly")` before any mutation (the error return leaves the caller's
state untouched), while `search` returns the empty list and never raises
in the same state. -/
theorem uninitialized_model_asymmetry (w : World) (chunks : List String) (source : String)
    (persist : PersistOutcome) (callsOk : Bool) (I : List Int)
    (hm : w.store.modelOk = false) :
    add_documents w chunks source persist
      = Except.error "Vector store not initialized properly" ∧
    search w.store callsOk I = some [] := by
  constructor
  · unfold add_documents; rw [hm]; simp
  · unfold search; rw [hm]; simp

/-- Witness for `uninitialized_model_asymmetry` on a store whose model
load failed but whose index and metadata hold one entry. -/
theorem uninitialized_model_asymmetry_witness :
    (⟨⟨false, 1, [⟨"t", "s"⟩]⟩, none, none⟩ : World).store.modelOk = false ∧
    (add_documents ⟨⟨false, 1, [⟨"t", "s"⟩]⟩, none, none⟩ ["u"] "s2" PersistOutcome.both
        = Except.error "Vector store not initialized properly" ∧
      search (⟨⟨false, 1, [⟨"t", "s"⟩]⟩, none, none⟩ : World).store true [0] = some []) :=
  ⟨rfl, uninitialized_model_asymmetry ⟨⟨false, 1, [⟨"t", "s"⟩]⟩, none, none⟩ ["u"] "s2"
    PersistOutcome.both true [0] rfl⟩

/-! ## Theorems about search -/

/-- Gathering over valid ordinals only: every lookup succeeds and one row
is appended per ordinal. -/
lemma searchGather_valid (md : List Row) :
    ∀ I, (∀ x ∈ I, 0 ≤ x ∧ x < (md.length : Int)) →
      ∃ r, searchGather I md = some r ∧ r.length = I.length := by
  intro I
  induction I with
  | nil => intro _; exact ⟨[], rfl, rfl⟩
  | cons idx rest ih =>
    intro hv
    obtain ⟨h0, hlt⟩ := hv idx (List.mem_cons_self _ _)
    obtain ⟨r, hr, hlen⟩ := ih (fun x hx => hv x (List.mem_cons_of_mem _ hx))
    have hnat : idx.toNat < md.length := by omega
    have hpy : pyIndex md idx = some (md.get ⟨idx.toNat, hnat⟩) := by
      simp [pyIndex, h0, List.get?_eq_get hnat]
    refine ⟨md.get ⟨idx.toNat, hnat⟩ :: r, ?_, by simp [hlen]⟩
    simp [searchGather, hlt, hpy, hr]

/-- Gathering over a run of `-1` padding sentinels on a nonempty metadata
list: each `-1` passes the `idx < len` guard and `md[-1]` is the last row,
so the run contributes one copy of the last row per sentinel. -/
lemma searchGather_pad (md : List Row) (last : Row)
    (hlast : md.getLast? = some last) :
    ∀ I, (∀ x ∈ I, x = (-1 : Int)) →
      searchGather I md = some (List.replicate I.length last) := by
  have hne : md ≠ [] := by intro h; rw [h] at hlast; simp at hlast
  have hlen : 0 < md.length := List.length_pos.mpr hne
  have hpy : pyIndex md (-1) = some last := by
    have hcond : ¬ (0 : Int) ≤ -1 := by omega
    have habs : ((-1 : Int)).natAbs = 1 := rfl
    simp only [pyIndex, if_neg hcond, habs, if_pos (show 1 ≤ md.length from hlen)]
    rw [List.get?_eq_getElem?, ← List.getLast?_eq_getElem?]
    exact hlast
  intro I
  induction I with
  | nil => intro _; rfl
  | cons idx rest ih =>
    intro hI
    have hidx : idx = -1 := hI idx (List.mem_cons_self _ _)
    subst hidx
    have hguard : (-1 : Int) < (md.length : Int) := by omega
    simp [searchGather, hguard, hpy,
      ih (fun x hx => hI x (List.mem_cons_of_mem _ hx)), List.replicate_succ]

/-- The gathering loop distributes over list append when both halves
succeed. -/
lemma searchGather_append (md : List Row) :
    ∀ I₁ I₂ r₁ r₂, searchGather I₁ md = some r₁ → searchGather I₂ md = some r₂ →
      searchGather (I₁ ++ I₂) md = some (r₁ ++ r₂) := by
  intro I₁
  induction I₁ with
  | nil =>
    intro I₂ r₁ r₂ h1 h2
    simp only [searchGather] at h1
    obtain rfl : ([] : List Row) = r₁ := Option.some_inj.mp h1
    simpa using h2
  | cons idx rest ih =>
    intro I₂ r₁ r₂ h1 h2
    simp only [searchGather, List.cons_append] at h1 ⊢
    by_cases hguard : idx < (md.length : Int)
    · simp only [if_pos hguard] at h1 ⊢
      cases hpy : pyIndex md idx with
      | none =>
        rw [hpy] at h1
        exact absurd (show (none : Option (List Row)) = some r₁ from h1) (by simp)
      | some row =>
        rw [hpy] at h1
        replace h1 : Option.map (fun rs => row :: rs) (searchGather rest md) = some r₁ := h1
        rw [Option.map_eq_some'] at h1
        obtain ⟨r, hrest, rfl⟩ := h1
        show Option.map (fun rs => row :: rs) (searchGather (rest ++ I₂) md)
          = some ((row :: r) ++ r₂)
        rw [ih I₂ r r₂ hrest h2]
        simp
    · simp only [if_neg hguard] at h1 ⊢
      exact ih I₂ r₁ r₂ h1 h2

/-- Claim C9: on a store whose metadata has `V > 0` rows in sync with a
flat index of `V` vectors, a `search` with `k > V` gets an ordinal row
padded with `-1` sentinels; the guard `idx < len(_metadata)` admits `-1`
and `_metadata[-1]` is the last row, so the returned list has length `k`
and its final `k - V` entries all equal the last metadata row instead of
being skipped. -/
theorem search_pad_duplicates (st : Store) (V k : Nat) (I : List Int)
    (hm : st.modelOk = true) (hV : st.metadata.length = V) (hV0 : 0 < V)
    (hVk : V < k) (hI : FaissOrdinals V k I) :
    ∃ r last, st.metadata.getLast? = some last ∧ search st true I = some r ∧
      r.length = k ∧ r.drop V = List.replicate (k - V) last := by
  obtain ⟨hlen, hvalid, hpad⟩ := hI
  have hmin : min V k = V := Nat.min_eq_left (le_of_lt hVk)
  rw [hmin] at hvalid hpad
  have hne : st.metadata ≠ [] := by
    intro h; rw [h] at hV; simp at hV; omega
  have hlast := List.getLast?_eq_getLast_of_ne_nil hne
  obtain ⟨r₁, hr₁, hr₁len⟩ := searchGather_valid st.metadata (I.take V)
    (by intro x hx; have := hvalid x hx; omega)
  have hr₁V : r₁.length = V := by
    rw [hr₁len, List.length_take, hlen]
    omega
  have hr₂ := searchGather_pad st.metadata (st.metadata.getLast hne) hlast
    (I.drop V) hpad
  have hdlen : (I.drop V).length = k - V := by rw [List.length_drop, hlen]
  rw [hdlen] at hr₂
  have hglue := searchGather_append st.metadata (I.take V) (I.drop V) _ _ hr₁ hr₂
  rw [List.take_append_drop] at hglue
  have hsearch : search st true I = searchGather I st.metadata := by
    unfold search
    rw [hm]
    simp [List.isEmpty_eq_false.mpr hne]
  refine ⟨r₁ ++ List.replicate (k - V) (st.metadata.getLast hne),
    st.metadata.getLast hne, hlast, by rw [hsearch, hglue], ?_, ?_⟩
  · simp [hr₁V]
    omega
  · rw [← hr₁V, List.drop_left]

/-- Witness for `search_pad_duplicates`: three in-sync vectors queried
with `k = 5` and the FAISS ordinal row `[0, 1, 2, -1, -1]`. -/
theorem search_pad_duplicates_witness :
    ((⟨true, 3, [⟨"a", "d"⟩, ⟨"b", "d"⟩, ⟨"c", "d"⟩]⟩ : Store).modelOk = true ∧
      (⟨true, 3, [⟨"a", "d"⟩, ⟨"b", "d"⟩, ⟨"c", "d"⟩]⟩ : Store).metadata.length = 3 ∧
      0 < 3 ∧ 3 < 5 ∧ FaissOrdinals 3 5 [0, 1, 2, -1, -1]) ∧
    (∃ r last,
      (⟨true, 3, [⟨"a", "d"⟩, ⟨"b", "d"⟩, ⟨"c", "d"⟩]⟩ : Store).metadata.getLast?
          = some last ∧
      search ⟨true, 3, [⟨"a", "d"⟩, ⟨"b", "d"⟩, ⟨"c", "d"⟩]⟩ true [0, 1, 2, -1, -1]
          = some r ∧
      r.length = 5 ∧ r.drop 3 = List.replicate (5 - 3) last) :=
  ⟨⟨rfl, rfl, by decide, by decide, by decide⟩,
    search_pad_duplicates ⟨true, 3, [⟨"a", "d"⟩, ⟨"b", "d"⟩, ⟨"c", "d"⟩]⟩ 3 5
      [0, 1, 2, -1, -1] rfl rfl (by decide) (by decide) (by decide)⟩

/-- Claim C1 fails on the code: on an index holding exactly the 3 vectors
of one ingested document (in sync with 3 metadata rows), `search(query,
k=5)` receives the padded FAISS ordinal row `[0, 1, 2, -1, -1]` and
returns 5 results — the last two spurious duplicates of the final row —
instead of the 3 results with out-of-range ordinals skipped that the
claim (and the guard's own log message) intends. -/
theorem search_three_vectors_k5_eval :
    FaissOrdinals 3 5 [0, 1, 2, -1, -1] ∧
    search ⟨true, 3, [⟨"a", "d"⟩, ⟨"b", "d"⟩, ⟨"c", "d"⟩]⟩ true [0, 1, 2, -1, -1]
      = some [⟨"a", "d"⟩, ⟨"b", "d"⟩, ⟨"c", "d"⟩, ⟨"c", "d"⟩, ⟨"c", "d"⟩] ∧
    ([(⟨"a", "d"⟩ : Row), ⟨"b", "d"⟩, ⟨"c", "d"⟩, ⟨"c", "d"⟩, ⟨"c", "d"⟩]).length ≠ 3 :=
  ⟨by decide, by decide, by decide⟩

/-! ## Theorems about answer_question -/

/-- Claim C4: when search returns a non-empty row list, `answer_question`
returns the generated text with surrounding whitespace trimmed and a
sources list with one entry per retrieved row, the `i`-th entry carrying
rank `i + 1` and the `i`-th row's source label, in the exact search order
(duplicate labels permitted); the generation client is invoked exactly
once, on the built prompt. -/
theorem answer_question_nonempty (question : String) (st : Store) (callsOk : Bool)
    (I : List Int) (gen : String → String) (docs : List Row)
    (hs : search st callsOk I = some docs) (hne : docs ≠ []) :
    ∃ res, answer_question question st callsOk I gen
        = some (res, [buildPrompt (buildContext docs) question]) ∧
      res.answer = (gen (buildPrompt (buildContext docs) question)).trim ∧
      res.sources = docs.enum.map (fun p => { id := p.1 + 1, source := p.2.source }) ∧
      res.sources.length = docs.length ∧
      (∀ i row, docs.get? i = some row →
        res.sources.get? i = some { id := i + 1, source := row.source }) := by
  have hemp : docs.isEmpty = false := List.isEmpty_eq_false.mpr hne
  refine ⟨{ answer := (gen (buildPrompt (buildContext docs) question)).trim
            sources := docs.enum.map (fun p => { id := p.1 + 1, source := p.2.source }) },
    ?_, rfl, rfl, ?_, ?_⟩
  · simp [answer_question, hs, hemp]
  · simp [List.enum_length]
  · intro i row hrow
    rw [List.get?_eq_getElem?] at hrow
    rw [List.get?_eq_getElem?]
    simp [List.getElem?_map, List.getElem?_enum, hrow]

/-- Witness for `answer_question_nonempty` on a one-row store. -/
theorem answer_question_nonempty_witness :
    (search ⟨true, 1, [⟨"t", "s"⟩]⟩ true [0] = some [⟨"t", "s"⟩] ∧
      ([(⟨"t", "s"⟩ : Row)]) ≠ []) ∧
    (∃ res, answer_question "q" ⟨true, 1, [⟨"t", "s"⟩]⟩ true [0] (fun _ => " X ")
        = some (res, [buildPrompt (buildContext [⟨"t", "s"⟩]) "q"]) ∧
      res.answer = ((fun _ => " X ") (buildPrompt (buildContext [⟨"t", "s"⟩]) "q")).trim ∧
      res.sources = ([(⟨"t", "s"⟩ : Row)]).enum.map
          (fun p => { id := p.1 + 1, source := p.2.source }) ∧
      res.sources.length = ([(⟨"t", "s"⟩ : Row)]).length ∧
      (∀ i row, ([(⟨"t", "s"⟩ : Row)]).get? i = some row →
        res.sources.get? i = some { id := i + 1, source := row.source })) :=
  ⟨⟨rfl, by decide⟩,
    answer_question_nonempty "q" ⟨true, 1, [⟨"t", "s"⟩]⟩ true [0] (fun _ => " X ")
      [⟨"t", "s"⟩] rfl (by decide)⟩

/-- Claim C5: when search returns the empty list, `answer_question`
returns immediately with the fixed fallback answer and an empty sources
list, and the generation client is never invoked (the prompt log of the
call is empty). -/
theorem answer_question_empty (question : String) (st : Store) (callsOk : Bool)
    (I : List Int) (gen : String → String) (hs : search st callsOk I = some []) :
    answer_question question st callsOk I gen
      = some ({ answer := fallbackAnswer, sources := [] }, []) := by
  simp [answer_question, hs]

/-- Witness for `answer_question_empty` on an empty store. -/
theorem answer_question_empty_witness :
    search ⟨true, 0, []⟩ true [] = some [] ∧
    answer_question "q" ⟨true, 0, []⟩ true [] (fun _ => " X ")
      = some ({ answer := fallbackAnswer, sources := [] }, []) :=
  ⟨rfl, answer_question_empty "q" ⟨true, 0, []⟩ true [] (fun _ => " X ") rfl⟩

/-! ## Theorems about cleanup_old_sessions -/

/-- Deleting the keys of the first `n` entries of an insertion-ordered
dict, in order, removes exactly those first `n` entries: each deletion
hits the current head. -/
lemma foldl_delKey_take {α : Type} :
    ∀ (pd : List (String × α)) (n : Nat),
      ((pd.take n).map Prod.fst).foldl (fun md sid => delKey md sid) pd = pd.drop n := by
  intro pd
  induction pd with
  | nil => intro n; simp
  | cons p pd' ih =>
    intro n
    cases n with
    | zero => simp
    | succ m =>
      simp only [List.take_succ_cons, List.map_cons, List.foldl_cons, List.drop_succ_cons]
      have hdel : delKey (p :: pd') p.1 = pd' :=
        List.eraseP_cons_of_pos (by simp)
      rw [hdel]
      exact ih m

/-- Claim C8 as amended: for every `K ≥ 1`, `cleanup_old_sessions(K)`
leaves exactly `min(C, K)` tracked sessions where `C` is the prior count,
namely the suffix of the `K` most recently created ones (eviction is by
creation order, irrespective of any session's active flag); when `C ≤ K`
nothing is evicted. For `K = 0` the Python slice `sessions[:-0]` is
`sessions[:0] = []`, so nothing is evicted. -/
theorem cleanup_keeps_recent (t : ProgressTracker) (K : Nat) (hK : 1 ≤ K) :
    (cleanup_old_sessions t K).progress_data
        = t.progress_data.drop (t.progress_data.length - K) ∧
    (cleanup_old_sessions t K).progress_data.length
        = min t.progress_data.length K := by
  by_cases h : t.progress_data.length > K
  · have hK0 : ¬ K = 0 := by omega
    have hmain : (cleanup_old_sessions t K).progress_data
        = t.progress_data.drop (t.progress_data.length - K) := by
      simp only [cleanup_old_sessions, if_pos h, pySliceUptoNeg, if_neg hK0]
      rw [List.length_map, ← List.map_take]
      exact foldl_delKey_take t.progress_data _
    refine ⟨hmain, ?_⟩
    rw [hmain, List.length_drop]
    omega
  · simp only [cleanup_old_sessions, if_neg h]
    constructor
    · have h0 : t.progress_data.length - K = 0 := by omega
      rw [h0, List.drop_zero]
    · omega

/-- Witness for `cleanup_keeps_recent`: two sessions cleaned up to the
single most recent one. -/
theorem cleanup_keeps_recent_witness :
    1 ≤ 1 ∧
    ((cleanup_old_sessions ⟨[("a", []), ("b", [])], [("a", true), ("b", true)]⟩ 1).progress_data
        = (⟨[("a", []), ("b", [])], [("a", true), ("b", true)]⟩ :
            ProgressTracker).progress_data.drop
          ((⟨[("a", []), ("b", [])], [("a", true), ("b", true)]⟩ :
            ProgressTracker).progress_data.length - 1) ∧
      (cleanup_old_sessions ⟨[("a", []), ("b", [])], [("a", true), ("b", true)]⟩ 1).progress_data.length
        = min (⟨[("a", []), ("b", [])], [("a", true), ("b", true)]⟩ :
            ProgressTracker).progress_data.length 1) :=
  ⟨by decide,
    cleanup_keeps_recent ⟨[("a", []), ("b", [])], [("a", true), ("b", true)]⟩ 1 (by decide)⟩

/-- Counterexample to claim C8 as stated: with one tracked session and
`max_sessions = 0`, the count `1 > 0` triggers the cleanup branch but the
slice `sessions[:-0] = sessions[:0]` is empty, so nothing is evicted and
one session remains instead of the claimed `min(1, 0) = 0`. -/
theorem cleanup_zero_cex :
    (cleanup_old_sessions ⟨[("s", [])], [("s", true)]⟩ 0).progress_data.length = 1 ∧
    min ((⟨[("s", [])], [("s", true)]⟩ : ProgressTracker).progress_data.length) 0 = 0 := by
  exact ⟨rfl, rfl⟩

end RagPdf
